import Mathlib

/-!
Verification of `apps/document/tasks.py` (lexpredict-contraxsuite): a shallow
embedding of the background-task orchestration code for document
import/export, field-detector training, status/assignee change propagation
and document-type lifecycle management, together with proofs of the key
behavioural properties of that code.

External collaborators (the ORM, the task queue, `lexnlp`, the field
detection library, the file storage) are modelled as explicit parameters or
oracles; the control flow of the embedded functions is translated line by
line from the Python source.
-/

namespace Contraxsuite

/-- Modelled from the spec: the `chunks` utility of the repository lives in
`apps.common.collection_utils`, outside this file set.  Per the spec it
realises the "Sub-task fan-out: splitting a bulk operation into many smaller
queued units of work": it cuts a sequence into consecutive chunks of at most
`n` elements, preserving order.  `chunksFuel` is a fuel-driven worker whose
fuel is instantiated with the list length, making the definition
structurally recursive and hence fully computable. -/
def chunksFuel {α : Type} (n : Nat) : Nat → List α → List (List α)
  | _, [] => []
  | 0, _ :: _ => []
  | fuel + 1, x :: xs => (x :: xs.take (n - 1)) :: chunksFuel n fuel (xs.drop (n - 1))

/-- Modelled from the spec: `chunks(lst, n)` from `apps.common.collection_utils`
(see `chunksFuel` for details). -/
def chunks {α : Type} (n : Nat) (l : List α) : List (List α) :=
  chunksFuel n l.length l

theorem chunksFuel_flatten {α : Type} (n : Nat) :
    ∀ fuel (l : List α), l.length ≤ fuel → (chunksFuel n fuel l).flatten = l := by
  intro fuel
  induction fuel with
  | zero =>
    intro l hl
    match l with
    | [] => rfl
  | succ fuel ih =>
    intro l hl
    match l with
    | [] => rfl
    | x :: xs =>
      have hd : (xs.drop (n - 1)).length ≤ fuel := by
        simp only [List.length_drop]
        simp at hl
        omega
      simp only [chunksFuel, List.flatten_cons, ih (xs.drop (n - 1)) hd]
      simp [List.take_append_drop]

theorem chunks_flatten {α : Type} (n : Nat) (l : List α) :
    (chunks n l).flatten = l :=
  chunksFuel_flatten n l.length l (Nat.le_refl _)

theorem chunksFuel_mem_length_le {α : Type} (n : Nat) (hn : 0 < n) :
    ∀ fuel (l : List α) c, c ∈ chunksFuel n fuel l → c.length ≤ n := by
  intro fuel
  induction fuel with
  | zero =>
    intro l c hc
    match l with
    | [] => simp [chunksFuel] at hc
    | _ :: _ => simp [chunksFuel] at hc
  | succ fuel ih =>
    intro l c hc
    match l with
    | [] => simp [chunksFuel] at hc
    | x :: xs =>
      simp only [chunksFuel, List.mem_cons] at hc
      rcases hc with rfl | hc
      · have := List.length_take_le (n - 1) xs
        simp only [List.length_cons]
        have : (xs.take (n - 1)).length ≤ n - 1 := by
          simp [List.length_take]
        omega
      · exact ih _ c hc

theorem chunks_mem_length_le {α : Type} (n : Nat) (hn : 0 < n)
    (l : List α) (c : List α) (hc : c ∈ chunks n l) : c.length ≤ n :=
  chunksFuel_mem_length_le n hn l.length l c hc

theorem chunksFuel_mem_ne_nil {α : Type} (n : Nat) :
    ∀ fuel (l : List α) c, c ∈ chunksFuel n fuel l → c ≠ [] := by
  intro fuel
  induction fuel with
  | zero =>
    intro l c hc
    match l with
    | [] => simp [chunksFuel] at hc
    | _ :: _ => simp [chunksFuel] at hc
  | succ fuel ih =>
    intro l c hc
    match l with
    | [] => simp [chunksFuel] at hc
    | x :: xs =>
      simp only [chunksFuel, List.mem_cons] at hc
      rcases hc with rfl | hc
      · simp
      · exact ih _ c hc

theorem chunks_mem_ne_nil {α : Type} (n : Nat) (l : List α) (c : List α)
    (hc : c ∈ chunks n l) : c ≠ [] :=
  chunksFuel_mem_ne_nil n l.length l c hc

theorem chunksFuel_mem_sublist {α : Type} (n : Nat) :
    ∀ fuel (l : List α) c, c ∈ chunksFuel n fuel l → c.Sublist l := by
  intro fuel
  induction fuel with
  | zero =>
    intro l c hc
    match l with
    | [] => simp [chunksFuel] at hc
    | _ :: _ => simp [chunksFuel] at hc
  | succ fuel ih =>
    intro l c hc
    match l with
    | [] => simp [chunksFuel] at hc
    | x :: xs =>
      simp only [chunksFuel, List.mem_cons] at hc
      rcases hc with rfl | hc
      · exact List.Sublist.cons₂ x (List.take_sublist _ _)
      · exact ((ih _ c hc).trans (List.drop_sublist _ _)).trans (List.sublist_cons_self x xs)

theorem chunks_mem_sublist {α : Type} (n : Nat) (l : List α) (c : List α)
    (hc : c ∈ chunks n l) : c.Sublist l :=
  chunksFuel_mem_sublist n l.length l c hc

/-! ## C1: `plan_process_documents_status_changed` / `plan_process_documents_assignee_changed`

Each function iterates `chunks(doc_ids, DOC_NUMBER_PER_MAIN_TASK)` and issues
one `call_task_func` per chunk.  The constant `DOC_NUMBER_PER_MAIN_TASK` is
defined in `apps.document.constants` (outside this file set); the embedding
takes it as the explicit parameter `docNumberPerMainTask`.  The result of
each function is the list of queued main-task argument tuples, in queueing
order. -/

def plan_process_documents_status_changed (docNumberPerMainTask : Nat)
    (doc_ids : List Nat) (new_status_id : Int) (changed_by_user_id : Option Int) :
    List (List Nat × Int × Option Int) :=
  (chunks docNumberPerMainTask doc_ids).map
    (fun doc_ids_chunk => (doc_ids_chunk, new_status_id, changed_by_user_id))

def plan_process_documents_assignee_changed (docNumberPerMainTask : Nat)
    (doc_ids : List Nat) (new_assignee_id : Option Int) (changed_by_user_id : Option Int) :
    List (List Nat × Option Int × Option Int) :=
  (chunks docNumberPerMainTask doc_ids).map
    (fun doc_ids_chunk => (doc_ids_chunk, new_assignee_id, changed_by_user_id))

/-- C1: for every list of document ids, `plan_process_documents_status_changed`
and `plan_process_documents_assignee_changed` each queue one task per
consecutive chunk of at most `DOC_NUMBER_PER_MAIN_TASK` ids, and the
concatenation of the queued chunks equals the input sequence: every document
id is queued exactly once and in its original order. -/
theorem plan_process_documents_chunking (n : Nat) (hn : 0 < n)
    (doc_ids : List Nat) (new_status_id : Int)
    (new_assignee_id changed_by_user_id : Option Int) :
    (∀ t ∈ plan_process_documents_status_changed n doc_ids new_status_id changed_by_user_id,
      t.1.length ≤ n ∧ t.1 ≠ [] ∧ t.2 = (new_status_id, changed_by_user_id)) ∧
    ((plan_process_documents_status_changed n doc_ids new_status_id changed_by_user_id).map
      (fun t => t.1)).flatten = doc_ids ∧
    (∀ t ∈ plan_process_documents_assignee_changed n doc_ids new_assignee_id changed_by_user_id,
      t.1.length ≤ n ∧ t.1 ≠ [] ∧ t.2 = (new_assignee_id, changed_by_user_id)) ∧
    ((plan_process_documents_assignee_changed n doc_ids new_assignee_id changed_by_user_id).map
      (fun t => t.1)).flatten = doc_ids := by
  refine ⟨?_, ?_, ?_, ?_⟩
  · intro t ht
    simp only [plan_process_documents_status_changed, List.mem_map] at ht
    obtain ⟨c, hc, rfl⟩ := ht
    exact ⟨chunks_mem_length_le n hn doc_ids c hc, chunks_mem_ne_nil n doc_ids c hc, rfl⟩
  · simp only [plan_process_documents_status_changed, List.map_map]
    have : ((fun t : List Nat × Int × Option Int => t.1) ∘
        (fun doc_ids_chunk => (doc_ids_chunk, new_status_id, changed_by_user_id))) = id := rfl
    rw [this, List.map_id]
    exact chunks_flatten n doc_ids
  · intro t ht
    simp only [plan_process_documents_assignee_changed, List.mem_map] at ht
    obtain ⟨c, hc, rfl⟩ := ht
    exact ⟨chunks_mem_length_le n hn doc_ids c hc, chunks_mem_ne_nil n doc_ids c hc, rfl⟩
  · simp only [plan_process_documents_assignee_changed, List.map_map]
    have : ((fun t : List Nat × Option Int × Option Int => t.1) ∘
        (fun doc_ids_chunk => (doc_ids_chunk, new_assignee_id, changed_by_user_id))) = id := rfl
    rw [this, List.map_id]
    exact chunks_flatten n doc_ids

/-- Witness for C1: the planning theorem applied at a concrete chunk size and
document id list. -/
theorem plan_process_documents_chunking_witness :
    0 < 2 ∧
    ((∀ t ∈ plan_process_documents_status_changed 2 [10, 11, 12] 5 (some 7),
      t.1.length ≤ 2 ∧ t.1 ≠ [] ∧ t.2 = ((5 : Int), some (7 : Int))) ∧
    ((plan_process_documents_status_changed 2 [10, 11, 12] 5 (some 7)).map
      (fun t => t.1)).flatten = [10, 11, 12] ∧
    (∀ t ∈ plan_process_documents_assignee_changed 2 [10, 11, 12] (some 3) (some 7),
      t.1.length ≤ 2 ∧ t.1 ≠ [] ∧ t.2 = (some (3 : Int), some (7 : Int))) ∧
    ((plan_process_documents_assignee_changed 2 [10, 11, 12] (some 3) (some 7)).map
      (fun t => t.1)).flatten = [10, 11, 12]) :=
  ⟨Nat.zero_lt_succ 1,
   plan_process_documents_chunking 2 (Nat.zero_lt_succ 1) [10, 11, 12] 5 (some 3) (some 7)⟩

/-! ## C2: `ExportDocuments.process`

The task sorts the document ids ascending (`document_ids.sort()`), splits
them into packs of at most `DOC_PER_PACK = 10` ids and, for each pack,
computes `first_id, last_id = min(ids_pack), max(ids_pack)`, creates the
sub-folder `str(first_id)` with `os.mkdir` (which raises `FileExistsError`
when the directory already exists), and writes the zip part of the pack as
`part_{first_id}_{last_id}.zip` (overwriting a file of the same name).  The
combined archive then contains exactly the top-level part files.  The
embedding threads the temp-directory state (created sub-folders, written
part files) explicitly; the part content is represented by the id pack the
exporter was given. -/

def DOC_PER_PACK : Nat := 10

/-- Writing a file into the temp directory: an existing file with the same
name is overwritten, otherwise the file is appended. -/
def writePart (parts : List ((Int × Int) × List Int)) (key : Int × Int)
    (content : List Int) : List ((Int × Int) × List Int) :=
  if parts.any (fun kv => decide (kv.1 = key)) then
    parts.map (fun kv => if kv.1 = key then (key, content) else kv)
  else parts ++ [(key, content)]

/-- The per-pack loop of `ExportDocuments.process`: for each pack, take
`min`/`max`, `os.mkdir` the `str(first_id)` sub-folder (raising
`FileExistsError` if it exists) and write the `part_{first}_{last}.zip`
file.  Returns the top-level part files that the combined archive is built
from. -/
def exportLoop : List (List Int) → List Int → List ((Int × Int) × List Int) →
    Except String (List ((Int × Int) × List Int))
  | [], _, parts => Except.ok parts
  | ids_pack :: rest, dirs, parts =>
    match ids_pack.min?, ids_pack.max? with
    | some first_id, some last_id =>
      if first_id ∈ dirs then Except.error "FileExistsError"
      else exportLoop rest (first_id :: dirs)
        (writePart parts (first_id, last_id) ids_pack)
    | _, _ => Except.error "ValueError: min() arg is an empty sequence"

/-- The packs `ExportDocuments.process` iterates over:
`chunks(document_ids, DOC_PER_PACK)` after `document_ids.sort()`. -/
def ExportDocuments.packs (document_ids : List Int) : List (List Int) :=
  chunks DOC_PER_PACK (document_ids.insertionSort (· ≤ ·))

/-- `ExportDocuments.process`: sort ids ascending, export packs of at most
`DOC_PER_PACK` ids, then build the combined archive from the part files. -/
def ExportDocuments.process (document_ids : List Int) :
    Except String (List ((Int × Int) × List Int)) :=
  exportLoop (ExportDocuments.packs document_ids) [] []

theorem foldl_min_of_forall_le {x : Int} {xs : List Int}
    (h : ∀ y ∈ xs, x ≤ y) : xs.foldl min x = x := by
  induction xs generalizing x with
  | nil => rfl
  | cons y ys ih =>
    have hxy : min x y = x := min_eq_left (h y (by simp))
    simp only [List.foldl_cons, hxy]
    exact ih (fun z hz => h z (by simp [hz]))

theorem sorted_min?_eq_head? {l : List Int} (h : List.Sorted (· ≤ ·) l) :
    l.min? = l.head? := by
  match l with
  | [] => rfl
  | x :: xs =>
    have hle : ∀ y ∈ xs, x ≤ y := fun y hy => (List.sorted_cons.mp h).1 y hy
    rw [show (x :: xs).min? = some (xs.foldl min x) from rfl,
      foldl_min_of_forall_le hle]
    rfl

theorem sorted_max?_eq_getLast? {l : List Int} (h : List.Sorted (· ≤ ·) l) :
    l.max? = l.getLast? := by
  induction l with
  | nil => rfl
  | cons x xs ih =>
    rcases xs with _ | ⟨y, ys⟩
    · rfl
    · have hxy : x ≤ y := (List.sorted_cons.mp h).1 y (by simp)
      have htail : List.Sorted (· ≤ ·) (y :: ys) := (List.sorted_cons.mp h).2
      rw [List.getLast?_cons_cons, ← ih htail,
        show (x :: y :: ys).max? = some ((y :: ys).foldl max x) from rfl,
        show (y :: ys).max? = some (ys.foldl max y) from rfl]
      simp only [List.foldl_cons, max_eq_right hxy]

/-- If no existing part file has the given name, writing appends. -/
theorem writePart_fresh {parts : List ((Int × Int) × List Int)}
    {key : Int × Int} {content : List Int}
    (h : ∀ kv ∈ parts, kv.1 ≠ key) :
    writePart parts key content = parts ++ [(key, content)] := by
  have : parts.any (fun kv => decide (kv.1 = key)) = false := by
    rw [List.any_eq_false]
    intro kv hkv
    simp [h kv hkv]
  simp [writePart, this]

/-- Invariant-based success lemma for the export loop: when all packs are
nonempty, the concatenation of the remaining packs is strictly sorted, every
already-created sub-folder name is below every remaining id and every part
file on disk belongs to a created sub-folder, the loop succeeds, preserves
the existing part files and records one part file per pack, keyed by the
min and max of the pack. -/
theorem exportLoop_ok (packs : List (List Int)) :
    ∀ dirs parts,
    (∀ p ∈ packs, p ≠ []) →
    List.Sorted (· < ·) packs.flatten →
    (∀ d ∈ dirs, ∀ x ∈ packs.flatten, d < x) →
    (∀ kv ∈ parts, kv.1.1 ∈ dirs) →
    ∃ parts', exportLoop packs dirs parts = Except.ok parts' ∧
      (∀ kv ∈ parts, kv ∈ parts') ∧
      (∀ p ∈ packs, ∀ f g, p.min? = some f → p.max? = some g →
        ((f, g), p) ∈ parts') := by
  induction packs with
  | nil =>
    intro dirs parts _ _ _ _
    exact ⟨parts, rfl, fun kv hkv => hkv, by simp⟩
  | cons p rest ih =>
    intro dirs parts hne hsort hdirs hparts
    have hpne : p ≠ [] := hne p (by simp)
    have hflat : (p :: rest).flatten = p ++ rest.flatten := by simp
    have hple : List.Sorted (· ≤ ·) p := by
      have hsub : p.Sublist (p :: rest).flatten := by
        rw [hflat]; exact List.sublist_append_left p rest.flatten
      exact ((hsort.sublist hsub).imp (fun h => le_of_lt h))
    obtain ⟨x, xs, rfl⟩ := List.exists_cons_of_ne_nil hpne
    have hmin : (x :: xs).min? = some x := by
      rw [sorted_min?_eq_head? hple]; rfl
    have hmaxls : (x :: xs).max? = (x :: xs).getLast? := sorted_max?_eq_getLast? hple
    obtain ⟨g, hg⟩ : ∃ g, (x :: xs).getLast? = some g := by
      rcases hlg : (x :: xs).getLast? with _ | g
      · simp at hlg
      · exact ⟨g, rfl⟩
    have hmax : (x :: xs).max? = some g := by rw [hmaxls, hg]
    have hxmem : x ∈ x :: xs := by simp
    have hxflat : x ∈ ((x :: xs) :: rest).flatten := by
      rw [hflat]; exact List.mem_append_left _ hxmem
    have hx_not_dir : x ∉ dirs := by
      intro hx
      exact lt_irrefl x (hdirs x hx x hxflat)
    have hcross : ∀ a ∈ (x :: xs), ∀ b ∈ rest.flatten, a < b := by
      have h1 := hsort
      rw [hflat] at h1
      have h2 : List.Pairwise (· < ·) ((x :: xs) ++ rest.flatten) := h1
      rw [List.pairwise_append] at h2
      exact h2.2.2
    have hfresh : ∀ kv ∈ parts, kv.1 ≠ (x, g) := by
      intro kv hkv heq
      have h1 : kv.1.1 ∈ dirs := hparts kv hkv
      have h2 : kv.1.1 < x := hdirs _ h1 x hxflat
      rw [heq] at h2
      exact lt_irrefl x h2
    have hstep : exportLoop ((x :: xs) :: rest) dirs parts =
        exportLoop rest (x :: dirs) (parts ++ [((x, g), x :: xs)]) := by
      rw [show exportLoop ((x :: xs) :: rest) dirs parts =
          (match (x :: xs).min?, (x :: xs).max? with
          | some first_id, some last_id =>
            if first_id ∈ dirs then Except.error "FileExistsError"
            else exportLoop rest (first_id :: dirs)
              (writePart parts (first_id, last_id) (x :: xs))
          | _, _ => Except.error "ValueError: min() arg is an empty sequence")
        from rfl, hmin, hmax]
      simp only [hx_not_dir, if_false]
      rw [writePart_fresh hfresh]
    have hrest_ne : ∀ q ∈ rest, q ≠ [] := fun q hq => hne q (by simp [hq])
    have hrest_sorted : List.Sorted (· < ·) rest.flatten := by
      have hsub : rest.flatten.Sublist ((x :: xs) :: rest).flatten := by
        rw [hflat]; exact List.sublist_append_right _ _
      exact hsort.sublist hsub
    have hrest_dirs : ∀ d ∈ x :: dirs, ∀ y ∈ rest.flatten, d < y := by
      intro d hd y hy
      rcases List.mem_cons.mp hd with rfl | hd
      · exact hcross d hxmem y hy
      · exact hdirs d hd y (by rw [hflat]; exact List.mem_append_right _ hy)
    have hrest_parts : ∀ kv ∈ parts ++ [((x, g), x :: xs)], kv.1.1 ∈ x :: dirs := by
      intro kv hkv
      rcases List.mem_append.mp hkv with hkv | hkv
      · exact List.mem_cons_of_mem _ (hparts kv hkv)
      · simp at hkv
        rw [hkv]
        simp
    obtain ⟨parts', hloop, hkeep, hrec⟩ :=
      ih (x :: dirs) (parts ++ [((x, g), x :: xs)]) hrest_ne hrest_sorted hrest_dirs hrest_parts
    refine ⟨parts', by rw [hstep, hloop], ?_, ?_⟩
    · intro kv hkv
      exact hkeep kv (List.mem_append_left _ hkv)
    · intro q hq f' g' hf' hg'
      rcases List.mem_cons.mp hq with rfl | hq
      · rw [hmin] at hf'
        rw [hmax] at hg'
        cases hf'
        cases hg'
        exact hkeep _ (List.mem_append_right _ (by simp))
      · exact hrec q hq f' g' hf' hg'

/-- The full functional specification proved for `ExportDocuments.process`
on duplicate-free input: the sorted ids are split into packs of at most
`DOC_PER_PACK`, the min of each pack is its first element and its max its last,
the packs concatenate to the sorted ids (a permutation of the input, so
every id lies in exactly one pack), and the part file of each pack is present in
the data the combined archive is built from. -/
def exportProcessSpec (document_ids : List Int) : Prop :=
  ∃ parts,
    ExportDocuments.process document_ids = Except.ok parts ∧
    (∀ p ∈ ExportDocuments.packs document_ids,
      p.length ≤ DOC_PER_PACK ∧ p.min? = p.head? ∧ p.max? = p.getLast?) ∧
    (ExportDocuments.packs document_ids).flatten
      = document_ids.insertionSort (· ≤ ·) ∧
    ((ExportDocuments.packs document_ids).flatten).Perm document_ids ∧
    (∀ d ∈ document_ids,
      (ExportDocuments.packs document_ids).countP (fun p => decide (d ∈ p)) = 1) ∧
    (∀ p ∈ ExportDocuments.packs document_ids, ∀ f g,
      p.min? = some f → p.max? = some g → ((f, g), p) ∈ parts)

theorem countP_mem_eq_one_of_disjoint {d : Int} (L : List (List Int))
    (hdisj : L.Pairwise List.Disjoint) (hd : d ∈ L.flatten) :
    L.countP (fun p => decide (d ∈ p)) = 1 := by
  induction L with
  | nil => simp at hd
  | cons p rest ih =>
    rw [List.pairwise_cons] at hdisj
    by_cases hdp : d ∈ p
    · have hnot : ∀ q ∈ rest, d ∉ q := by
        intro q hq hdq
        exact (hdisj.1 q hq) hdp hdq
      have hzero : rest.countP (fun p => decide (d ∈ p)) = 0 := by
        rw [List.countP_eq_zero]
        intro q hq
        simp [hnot q hq]
      rw [List.countP_cons]
      simp [hdp, hzero]
    · have hdrest : d ∈ rest.flatten := by
        rw [List.flatten_cons, List.mem_append] at hd
        rcases hd with h | h
        · exact absurd h hdp
        · exact h
      rw [List.countP_cons]
      simp [hdp, ih hdisj.2 hdrest]

/-- C2 (amended to duplicate-free id lists): `ExportDocuments.process` first
sorts the ids ascending and exports consecutive packs of at most
`DOC_PER_PACK` (10) ids; the min of each pack is its first element and its max
its last, every document id belongs to exactly one pack, and the zip part of each pack is included in the data the single combined archive is built
from. -/
theorem exportDocuments_process_sorted_packs (document_ids : List Int)
    (hnd : document_ids.Nodup) : exportProcessSpec document_ids := by
  set sorted := document_ids.insertionSort (· ≤ ·) with hsorted_def
  have hsorted_le : List.Sorted (· ≤ ·) sorted := List.sorted_insertionSort _ _
  have hperm : sorted.Perm document_ids := List.perm_insertionSort _ _
  have hsorted_nd : sorted.Nodup := hperm.symm.nodup hnd
  have hsorted_lt : List.Sorted (· < ·) sorted := hsorted_le.lt_of_le hsorted_nd
  have hflat : (ExportDocuments.packs document_ids).flatten = sorted :=
    chunks_flatten DOC_PER_PACK sorted
  have hflat_lt : List.Sorted (· < ·) (ExportDocuments.packs document_ids).flatten := by
    rw [hflat]; exact hsorted_lt
  have hne : ∀ p ∈ ExportDocuments.packs document_ids, p ≠ [] :=
    fun p hp => chunks_mem_ne_nil _ _ p hp
  obtain ⟨parts, hloop, _, hrec⟩ :=
    exportLoop_ok (ExportDocuments.packs document_ids) [] [] hne hflat_lt
      (by simp) (by simp)
  refine ⟨parts, hloop, ?_, hflat, by rw [hflat]; exact hperm, ?_, hrec⟩
  · intro p hp
    have hsub : p.Sublist sorted := by
      rw [← hflat]
      exact List.sublist_flatten_of_mem hp
    have hple : List.Sorted (· ≤ ·) p := hsorted_le.sublist hsub
    exact ⟨chunks_mem_length_le DOC_PER_PACK (by decide) sorted p hp,
      sorted_min?_eq_head? hple, sorted_max?_eq_getLast? hple⟩
  · intro d hd
    have hdflat : d ∈ (ExportDocuments.packs document_ids).flatten := by
      rw [hflat]
      exact hperm.symm.mem_iff.mp hd
    have hndflat : (ExportDocuments.packs document_ids).flatten.Nodup := by
      rw [hflat]; exact hsorted_nd
    rw [List.nodup_flatten] at hndflat
    exact countP_mem_eq_one_of_disjoint _ hndflat.2 hdflat

/-- Counterexample for C2 as stated: on a list with duplicated document ids
(eleven copies of id 7) two consecutive packs share `first_id = 7`, so the
second `os.mkdir(subfolder)` raises `FileExistsError`; no combined archive
is written to storage and the claimed specification fails. -/
theorem exportDocuments_process_duplicates_fail :
    ExportDocuments.process (List.replicate 11 7) = Except.error "FileExistsError" ∧
    ¬ exportProcessSpec (List.replicate 11 7) := by
  refine ⟨by rfl, ?_⟩
  rintro ⟨parts, hok, -⟩
  rw [show ExportDocuments.process (List.replicate 11 7) =
    Except.error "FileExistsError" by rfl] at hok
  cases hok

/-- Witness for the amended C2: the export theorem applied to a concrete
duplicate-free id list. -/
theorem exportDocuments_process_sorted_packs_witness :
    ([5, 4, 3] : List Int).Nodup ∧ exportProcessSpec [5, 4, 3] :=
  ⟨by decide, exportDocuments_process_sorted_packs [5, 4, 3] (by decide)⟩

/-! ## C3: `ImportDocumentType.process` -/

/-- The `(save, auto_fix_validation_errors, remove_missed_objects)` triple
chosen by `ImportDocumentType.process` from the action string;
`Except.error` models the `RuntimeError` with message `Unknown action` raised for any
other action. -/
def importActionFlags (action : String) : Except String (Bool × Bool × Bool) :=
  if action = "validate" then Except.ok (false, false, false)
  else if action = "validate|import" then Except.ok (true, false, false)
  else if action = "import|auto_fix|retain_missing_objects" then Except.ok (true, true, false)
  else if action = "import|auto_fix|remove_missing_objects" then Except.ok (true, true, true)
  else Except.error "Unknown action"

/-- `ImportDocumentType.process` up to the caching stage: resolve the action
string to the flag triple (raising `RuntimeError` with message `Unknown action`
otherwise), then call the external `import_document_type` inside
`try ... finally DbCache.clean_cache(cache_key)`.  `import_document_type`
is an oracle from the flag triple to its outcome (normal return or raise).
The second component records whether the cached JSON bytes were removed
from `DbCache`. -/
def ImportDocumentType.process {δ : Type} (action : String)
    (import_document_type : Bool → Bool → Bool → Except String δ) :
    Except String δ × Bool :=
  match importActionFlags action with
  | Except.error e => (Except.error e, false)
  | Except.ok (save, auto_fix_validation_errors, remove_missed_objects) =>
    (import_document_type save auto_fix_validation_errors remove_missed_objects, true)

/-- C3: `ImportDocumentType.process` maps `validate` to
`(False, False, False)`, `validate|import` to `(True, False, False)`,
`import|auto_fix|retain_missing_objects` to `(True, True, False)` and
`import|auto_fix|remove_missing_objects` to `(True, True, True)`; any
other action raises `RuntimeError` (and the cache key is then never
touched), and for the four known actions the cached JSON bytes are removed
from `DbCache` whatever outcome `import_document_type` has — the oracle is
universally quantified, covering both success and raise. -/
theorem importDocumentType_action_mapping {δ : Type} (action : String)
    (import_document_type : Bool → Bool → Bool → Except String δ)
    (h1 : action ≠ "validate") (h2 : action ≠ "validate|import")
    (h3 : action ≠ "import|auto_fix|retain_missing_objects")
    (h4 : action ≠ "import|auto_fix|remove_missing_objects") :
    ImportDocumentType.process "validate" import_document_type
      = (import_document_type false false false, true) ∧
    ImportDocumentType.process "validate|import" import_document_type
      = (import_document_type true false false, true) ∧
    ImportDocumentType.process "import|auto_fix|retain_missing_objects" import_document_type
      = (import_document_type true true false, true) ∧
    ImportDocumentType.process "import|auto_fix|remove_missing_objects" import_document_type
      = (import_document_type true true true, true) ∧
    ImportDocumentType.process action import_document_type
      = (Except.error "Unknown action", false) := by
  refine ⟨rfl, rfl, rfl, rfl, ?_⟩
  simp [ImportDocumentType.process, importActionFlags, h1, h2, h3, h4]

/-- Witness for C3: the mapping theorem applied at a concrete unknown action
and an `import_document_type` oracle that raises; the flag mapping and the
cache cleanup hold there. -/
theorem importDocumentType_action_mapping_witness :
    (("noop" : String) ≠ "validate" ∧ ("noop" : String) ≠ "validate|import" ∧
      ("noop" : String) ≠ "import|auto_fix|retain_missing_objects" ∧
      ("noop" : String) ≠ "import|auto_fix|remove_missing_objects") ∧
    (ImportDocumentType.process "validate" (fun _ _ _ => (Except.error "boom" : Except String Unit))
      = (Except.error "boom", true) ∧
    ImportDocumentType.process "validate|import" (fun _ _ _ => (Except.error "boom" : Except String Unit))
      = (Except.error "boom", true) ∧
    ImportDocumentType.process "import|auto_fix|retain_missing_objects"
      (fun _ _ _ => (Except.error "boom" : Except String Unit)) = (Except.error "boom", true) ∧
    ImportDocumentType.process "import|auto_fix|remove_missing_objects"
      (fun _ _ _ => (Except.error "boom" : Except String Unit)) = (Except.error "boom", true) ∧
    ImportDocumentType.process "noop" (fun _ _ _ => (Except.error "boom" : Except String Unit))
      = (Except.error "Unknown action", false)) :=
  ⟨⟨by decide, by decide, by decide, by decide⟩,
   importDocumentType_action_mapping "noop" (fun _ _ _ => Except.error "boom")
     (by decide) (by decide) (by decide) (by decide)⟩

/-! ## C4 and C5: classifier model replacement on (re)training -/

/-- A persisted `ClassifierModel` row: the `DocumentField` it belongs to and
the trained classifier payload (kept abstract here). -/
structure ClassifierModel (μ : Type) where
  document_field : Nat
  payload : μ

/-- `TrainDocumentFieldDetectorModel.train_model_for_field`: train a model
for the field (the external call to
`field_detection.train_document_field_detector_model` is the oracle result
`new_model`); when a model is obtained, delete every `ClassifierModel` row
of the field, then save the new one; when no model is obtained, leave the
table unchanged. -/
def train_model_for_field {μ : Type} (db : List (ClassifierModel μ))
    (field_uid : Nat) (new_model : Option (ClassifierModel μ)) :
    List (ClassifierModel μ) :=
  match new_model with
  | some m => (db.filter fun cm => decide (cm.document_field ≠ field_uid)) ++ [m]
  | none => db

/-- A `DocumentField` as seen by the dirty-field retraining task. -/
structure DirtyField where
  pk : Nat
  dirty : Bool
  can_retrain : Bool
  trained_after_documents_number : Nat

/-- `TrainDirtyDocumentFieldDetectorModel.train_model_for_dirty_field`: when
`can_retrain()` holds, clear and save the `dirty` flag first, then compare
the approved-documents count with `trained_after_documents_number` and only
then train; when a model is obtained, replace the persisted
classifier models of the field.  Returns the saved field together with the updated
`ClassifierModel` table. -/
def train_model_for_dirty_field {μ : Type} (dirty_field : DirtyField)
    (db : List (ClassifierModel μ)) (train_docs_count : Nat)
    (new_model : Option (ClassifierModel μ)) :
    DirtyField × List (ClassifierModel μ) :=
  if dirty_field.can_retrain then
    let saved_field := { dirty_field with dirty := false }
    if train_docs_count ≥ dirty_field.trained_after_documents_number then
      match new_model with
      | some m => (saved_field,
          (db.filter fun cm => decide (cm.document_field ≠ dirty_field.pk)) ++ [m])
      | none => (saved_field, db)
    else (saved_field, db)
  else (dirty_field, db)

/-- The training phase of `TrainAndTest.process`: unless `skip_training`,
train the field (oracle result `new_model`); when a model is obtained,
delete the persisted classifier models of the field and save the new one.
Returns the updated table and the `new_model` variable passed on to the
testing phase. -/
def TrainAndTest.processTraining {μ : Type} (db : List (ClassifierModel μ))
    (field_uid : Nat) (skip_training : Bool)
    (new_model : Option (ClassifierModel μ)) :
    List (ClassifierModel μ) × Option (ClassifierModel μ) :=
  if skip_training then (db, none)
  else
    match new_model with
    | some m => ((db.filter fun cm => decide (cm.document_field ≠ field_uid)) ++ [m], some m)
    | none => (db, none)

theorem filter_models_for_field {μ : Type} (db : List (ClassifierModel μ))
    (field_uid : Nat) (m : ClassifierModel μ) (hm : m.document_field = field_uid) :
    ((db.filter fun cm => decide (cm.document_field ≠ field_uid)) ++ [m]).filter
      (fun cm => decide (cm.document_field = field_uid)) = [m] := by
  rw [List.filter_append]
  have h1 : (db.filter fun cm => decide (cm.document_field ≠ field_uid)).filter
      (fun cm => decide (cm.document_field = field_uid)) = [] := by
    rw [List.filter_filter]
    apply List.filter_eq_nil_iff.mpr
    intro cm _
    by_cases h : cm.document_field = field_uid <;> simp [h]
  rw [h1]
  simp [hm]

/-- C4: whenever `train_model_for_field`, `train_model_for_dirty_field` or
`TrainAndTest.process` obtains a new model, all previously persisted
`ClassifierModel` rows of the field are deleted and the new model saved, so
afterwards the rows of the field are exactly the new model; when training yields
no model, the table is left unchanged.  (`hm`: the trained model belongs to
the field it was trained for — the contract of the external trainer.) -/
theorem training_replaces_classifier_models {μ : Type}
    (db : List (ClassifierModel μ)) (field_uid : Nat) (m : ClassifierModel μ)
    (dirty_field : DirtyField) (train_docs_count : Nat)
    (hm : m.document_field = field_uid)
    (hpk : dirty_field.pk = field_uid)
    (hretrain : dirty_field.can_retrain = true)
    (hcount : train_docs_count ≥ dirty_field.trained_after_documents_number) :
    ((train_model_for_field db field_uid (some m)).filter
      (fun cm => decide (cm.document_field = field_uid)) = [m]) ∧
    train_model_for_field db field_uid none = db ∧
    ((train_model_for_dirty_field dirty_field db train_docs_count (some m)).2.filter
      (fun cm => decide (cm.document_field = field_uid)) = [m]) ∧
    (train_model_for_dirty_field dirty_field db train_docs_count none).2 = db ∧
    ((TrainAndTest.processTraining db field_uid false (some m)).1.filter
      (fun cm => decide (cm.document_field = field_uid)) = [m]) ∧
    (TrainAndTest.processTraining db field_uid false none).1 = db := by
  refine ⟨?_, rfl, ?_, ?_, ?_, rfl⟩
  · exact filter_models_for_field db field_uid m hm
  · rw [train_model_for_dirty_field]
    simp only [hretrain, if_true, hcount, ge_iff_le, if_true, hpk]
    exact filter_models_for_field db field_uid m hm
  · rw [train_model_for_dirty_field]
    simp [hretrain, hcount]
  · exact filter_models_for_field db field_uid m hm

/-- Witness for C4: the replacement theorem applied to a concrete table of
two classifier models and a concrete dirty field. -/
theorem training_replaces_classifier_models_witness :
    ((ClassifierModel.mk 1 (9 : Nat)).document_field = 1 ∧
      (DirtyField.mk 1 true true 3).pk = 1 ∧
      (DirtyField.mk 1 true true 3).can_retrain = true ∧
      5 ≥ (DirtyField.mk 1 true true 3).trained_after_documents_number) ∧
    (((train_model_for_field [ClassifierModel.mk 1 0, ClassifierModel.mk 2 5] 1
        (some (ClassifierModel.mk 1 9))).filter
      (fun cm => decide (cm.document_field = 1)) = [ClassifierModel.mk 1 9]) ∧
    train_model_for_field [ClassifierModel.mk 1 0, ClassifierModel.mk 2 5] 1 none
      = [ClassifierModel.mk 1 0, ClassifierModel.mk 2 5] ∧
    ((train_model_for_dirty_field (DirtyField.mk 1 true true 3)
        [ClassifierModel.mk 1 0, ClassifierModel.mk 2 5] 5
        (some (ClassifierModel.mk 1 9))).2.filter
      (fun cm => decide (cm.document_field = 1)) = [ClassifierModel.mk 1 9]) ∧
    (train_model_for_dirty_field (DirtyField.mk 1 true true 3)
        [ClassifierModel.mk 1 0, ClassifierModel.mk 2 5] 5 none).2
      = [ClassifierModel.mk 1 0, ClassifierModel.mk 2 5] ∧
    ((TrainAndTest.processTraining [ClassifierModel.mk 1 0, ClassifierModel.mk 2 5] 1 false
        (some (ClassifierModel.mk 1 9))).1.filter
      (fun cm => decide (cm.document_field = 1)) = [ClassifierModel.mk 1 9]) ∧
    (TrainAndTest.processTraining [ClassifierModel.mk 1 0, ClassifierModel.mk 2 5] 1 false none).1
      = [ClassifierModel.mk 1 0, ClassifierModel.mk 2 5]) :=
  ⟨⟨rfl, rfl, rfl, by decide⟩,
   training_replaces_classifier_models
     [ClassifierModel.mk 1 0, ClassifierModel.mk 2 5] 1 (ClassifierModel.mk 1 9)
     (DirtyField.mk 1 true true 3) 5 rfl rfl rfl (by decide)⟩

/-- C5: on a dirty field with `can_retrain()`, `train_model_for_dirty_field`
clears the `dirty` flag and saves the field before comparing the
approved-documents count with the threshold — so the flag is cleared even
when the count is below `trained_after_documents_number` and no model is
trained; the persisted models are replaced only when the count reaches the
threshold (and a model is actually obtained). -/
theorem train_model_for_dirty_field_clears_dirty {μ : Type}
    (dirty_field : DirtyField) (db : List (ClassifierModel μ))
    (train_docs_count : Nat) (new_model : Option (ClassifierModel μ))
    (hretrain : dirty_field.can_retrain = true) :
    (train_model_for_dirty_field dirty_field db train_docs_count new_model).1.dirty = false ∧
    (train_docs_count < dirty_field.trained_after_documents_number →
      (train_model_for_dirty_field dirty_field db train_docs_count new_model).2 = db) ∧
    (∀ m, new_model = some m →
      train_docs_count ≥ dirty_field.trained_after_documents_number →
      (train_model_for_dirty_field dirty_field db train_docs_count new_model).2
        = (db.filter fun cm => decide (cm.document_field ≠ dirty_field.pk)) ++ [m]) := by
  refine ⟨?_, ?_, ?_⟩
  · rw [train_model_for_dirty_field]
    simp only [hretrain, if_true]
    by_cases hc : train_docs_count ≥ dirty_field.trained_after_documents_number
    · simp only [hc, if_true]
      cases new_model <;> rfl
    · simp [hc]
  · intro hlt
    have hc : ¬ train_docs_count ≥ dirty_field.trained_after_documents_number :=
      Nat.not_le_of_lt hlt
    rw [train_model_for_dirty_field]
    simp [hretrain, hc]
  · intro m hsome hc
    subst hsome
    rw [train_model_for_dirty_field]
    simp [hretrain, hc]

/-- Witness for C5: the dirty-flag theorem applied to a concrete retrainable
field whose approved-documents count is below the threshold: the flag is
cleared and the model table untouched. -/
theorem train_model_for_dirty_field_clears_dirty_witness :
    (DirtyField.mk 4 true true 10).can_retrain = true ∧
    ((train_model_for_dirty_field (DirtyField.mk 4 true true 10)
        [ClassifierModel.mk 4 (0 : Nat)] 2 none).1.dirty = false ∧
    (2 < (DirtyField.mk 4 true true 10).trained_after_documents_number →
      (train_model_for_dirty_field (DirtyField.mk 4 true true 10)
        [ClassifierModel.mk 4 (0 : Nat)] 2 none).2 = [ClassifierModel.mk 4 0]) ∧
    (∀ m, (none : Option (ClassifierModel Nat)) = some m →
      2 ≥ (DirtyField.mk 4 true true 10).trained_after_documents_number →
      (train_model_for_dirty_field (DirtyField.mk 4 true true 10)
        [ClassifierModel.mk 4 (0 : Nat)] 2 none).2
        = ([ClassifierModel.mk 4 0].filter fun cm => decide (cm.document_field ≠ 4)) ++ [m])) :=
  ⟨rfl, train_model_for_dirty_field_clears_dirty (DirtyField.mk 4 true true 10)
    [ClassifierModel.mk 4 0] 2 none rfl⟩

/-! ## C6: `_process_documents_status_changed` -/

/-- One observable side effect of the documents-status-changed sub-task
against the external repository and signal layer. -/
inductive StatusChangeEffect
  | deleteHiddenFieldValues (doc_id : Nat)
  | fireDocumentsStatusChanged (doc_ids : List Nat) (new_status_id : Int)
      (changed_by_user_id : Option Int)
deriving DecidableEq

/-- `_process_documents_status_changed`: load the new `ReviewStatus` (its
`is_active` flag is the parameter `status_is_active`); when the status is
not active, delete the hidden field values of every listed document; in
every case fire the documents-status-changed signal with the documents, the
new status id and the changing user.  The result is the ordered list of
side effects performed. -/
def processDocumentsStatusChangedSub (doc_ids : List Nat) (new_status_id : Int)
    (status_is_active : Bool) (changed_by_user_id : Option Int) :
    List StatusChangeEffect :=
  (if status_is_active then []
   else doc_ids.map StatusChangeEffect.deleteHiddenFieldValues) ++
  [StatusChangeEffect.fireDocumentsStatusChanged doc_ids new_status_id changed_by_user_id]

/-- C6: `_process_documents_status_changed` deletes the hidden field values
of a listed document if and only if the new review status is not active,
and fires the documents-status-changed signal with the new status id and
changing user in every case. -/
theorem processDocumentsStatusChangedSub_effects (doc_ids : List Nat)
    (new_status_id : Int) (status_is_active : Bool) (changed_by_user_id : Option Int) :
    (∀ d, StatusChangeEffect.deleteHiddenFieldValues d ∈
        processDocumentsStatusChangedSub doc_ids new_status_id status_is_active changed_by_user_id
      ↔ (d ∈ doc_ids ∧ status_is_active = false)) ∧
    StatusChangeEffect.fireDocumentsStatusChanged doc_ids new_status_id changed_by_user_id ∈
      processDocumentsStatusChangedSub doc_ids new_status_id status_is_active changed_by_user_id := by
  constructor
  · intro d
    cases status_is_active <;> simp [processDocumentsStatusChangedSub]
  · cases status_is_active <;> simp [processDocumentsStatusChangedSub]

/-! ## C7: `identify_document_classes` -/

/-- `DocumentClass.CONTRACT` (defined in `apps.document.document_class`,
outside this file set; only the identity of the label matters to the claims). -/
def DocumentClass.CONTRACT : String := "Contract"

/-- `DocumentClass.GENERIC` (see `DocumentClass.CONTRACT`). -/
def DocumentClass.GENERIC : String := "Generic"

/-- Python truthiness of an optional string (`None` and the empty string are falsy). -/
def strTruthy : Option String → Bool
  | none => false
  | some s => decide (s ≠ "")

/-- Python truthiness of an optional integer (`None` and `0` are falsy). -/
def natTruthy : Option Nat → Bool
  | none => false
  | some n => decide (n ≠ 0)

/-- A `Document` row as seen by `identify_document_classes`;
`document_class` is `none` for SQL NULL and `some ""` for the empty string,
and the single metadata key `DOC_METADATA_DOCUMENT_CLASS_PROB` is modelled
by `class_prob`.  `π` is the abstract type of the probability returned by
lexnlp. -/
structure ClassifiedDoc (π : Type) where
  pk : Nat
  document_class : Option String
  document_type_code : String
  project_id : Nat
  full_text : Option String
  class_prob : Option π

/-- The queryset filter of `identify_document_classes`: all documents;
unless `force_recheck`, only those whose `document_class` is empty or NULL
(the `document_class` filter accepts the empty string or NULL); narrowed further
by document type code and project id when those arguments are truthy. -/
def selectedForClassification {π : Type} (doc : ClassifiedDoc π)
    (force_recheck : Bool) (document_type_code : Option String)
    (project_id : Option Nat) : Bool :=
  (force_recheck || decide (doc.document_class = some "") ||
      decide (doc.document_class = none)) &&
  (!strTruthy document_type_code || decide (some doc.document_type_code = document_type_code)) &&
  (!natTruthy project_id || decide (some doc.project_id = project_id))

/-- The per-document body of the `identify_document_classes` loop.
`res` is the outcome of `is_contract(doc_text, return_probability=True)`
(`Except.error` — the call raised; `Except.ok none` — a falsy result;
`Except.ok (some (flag, prob))` — a result tuple).  On a raise or a falsy
result the document is skipped (`continue`); otherwise `document_class` is
set to `CONTRACT` when the flag is truthy and `GENERIC` otherwise, and the
probability is stored under `DOC_METADATA_DOCUMENT_CLASS_PROB`. -/
def classifyDoc {π : Type} (doc : ClassifiedDoc π)
    (res : Except Unit (Option (Bool × π))) : ClassifiedDoc π :=
  match res with
  | Except.error _ => doc
  | Except.ok none => doc
  | Except.ok (some (flag, prob)) =>
    { doc with
      document_class :=
        some (if flag then DocumentClass.CONTRACT else DocumentClass.GENERIC),
      class_prob := some prob }

/-- `identify_document_classes`: apply the queryset filter, then run the
per-document classification on each selected document (`doc_text` is
`doc.full_text` with a fallback to the empty string); unselected documents are untouched. -/
def identify_document_classes {π : Type} (docs : List (ClassifiedDoc π))
    (force_recheck : Bool) (document_type_code : Option String)
    (project_id : Option Nat)
    (is_contract : String → Except Unit (Option (Bool × π))) :
    List (ClassifiedDoc π) :=
  docs.map fun doc =>
    if selectedForClassification doc force_recheck document_type_code project_id then
      classifyDoc doc (is_contract (doc.full_text.getD ""))
    else doc

/-- C7: `identify_document_classes` selects, when `force_recheck` is false,
exactly the documents whose class is empty or NULL (narrowed by type code
and project when given); classification is delegated to the `is_contract`
oracle, and when a result is returned the class becomes `CONTRACT` exactly
when its first component is truthy and `GENERIC` otherwise, with the
returned probability stored in the metadata; on a raise or a falsy result
the document is skipped unchanged. -/
theorem identify_document_classes_spec {π : Type}
    (docs : List (ClassifiedDoc π)) (force_recheck : Bool)
    (document_type_code : Option String) (project_id : Option Nat)
    (is_contract : String → Except Unit (Option (Bool × π))) :
    identify_document_classes docs force_recheck document_type_code project_id is_contract
      = docs.map (fun doc =>
          if selectedForClassification doc force_recheck document_type_code project_id then
            classifyDoc doc (is_contract (doc.full_text.getD ""))
          else doc) ∧
    (∀ doc : ClassifiedDoc π,
      selectedForClassification doc false document_type_code project_id = true ↔
        (doc.document_class = some "" ∨ doc.document_class = none) ∧
        (strTruthy document_type_code = true → some doc.document_type_code = document_type_code) ∧
        (natTruthy project_id = true → some doc.project_id = project_id)) ∧
    (∀ (doc : ClassifiedDoc π) (e : Unit), classifyDoc doc (Except.error e) = doc) ∧
    (∀ doc : ClassifiedDoc π, classifyDoc doc (Except.ok none) = doc) ∧
    (∀ (doc : ClassifiedDoc π) (flag : Bool) (prob : π),
      (classifyDoc doc (Except.ok (some (flag, prob)))).document_class
        = some (if flag then DocumentClass.CONTRACT else DocumentClass.GENERIC) ∧
      (classifyDoc doc (Except.ok (some (flag, prob)))).class_prob = some prob ∧
      (classifyDoc doc (Except.ok (some (flag, prob)))).pk = doc.pk) := by
  refine ⟨rfl, ?_, fun _ _ => rfl, fun _ => rfl, fun _ _ _ => ⟨rfl, rfl, rfl⟩⟩
  intro doc
  simp only [selectedForClassification, Bool.false_or, Bool.and_eq_true,
    Bool.or_eq_true, decide_eq_true_eq]
  constructor
  · rintro ⟨⟨h1, h2⟩, h3⟩
    refine ⟨h1, ?_, ?_⟩
    · intro ht
      rcases h2 with h | h
      · rw [Bool.not_eq_true', ht] at h
        cases h
      · exact h
    · intro ht
      rcases h3 with h | h
      · rw [Bool.not_eq_true', ht] at h
        cases h
      · exact h
  · rintro ⟨h1, h2, h3⟩
    refine ⟨⟨h1, ?_⟩, ?_⟩
    · cases hs : strTruthy document_type_code
      · simp
      · simp [h2 hs]
    · cases hs : natTruthy project_id
      · simp
      · simp [h3 hs]

/-- Witness for C7: the classification theorem applied to a concrete
document list, filter arguments and `is_contract` oracle. -/
theorem identify_document_classes_spec_witness :
    identify_document_classes
        [ClassifiedDoc.mk 1 none "t" 2 (some "hello") (none : Option Nat)]
        false (some "t") (some 2) (fun _ => Except.ok (some (true, 88)))
      = [ClassifiedDoc.mk 1 none "t" 2 (some "hello") (none : Option Nat)].map
          (fun doc => if selectedForClassification doc false (some "t") (some 2) then
            classifyDoc doc ((fun _ => Except.ok (some (true, 88))) (doc.full_text.getD ""))
          else doc) ∧
    (∀ doc : ClassifiedDoc Nat,
      selectedForClassification doc false (some "t") (some 2) = true ↔
        (doc.document_class = some "" ∨ doc.document_class = none) ∧
        (strTruthy (some "t") = true → some doc.document_type_code = some "t") ∧
        (natTruthy (some 2) = true → some doc.project_id = some 2)) ∧
    (∀ (doc : ClassifiedDoc Nat) (e : Unit), classifyDoc doc (Except.error e) = doc) ∧
    (∀ doc : ClassifiedDoc Nat, classifyDoc doc (Except.ok none) = doc) ∧
    (∀ (doc : ClassifiedDoc Nat) (flag : Bool) (prob : Nat),
      (classifyDoc doc (Except.ok (some (flag, prob)))).document_class
        = some (if flag then DocumentClass.CONTRACT else DocumentClass.GENERIC) ∧
      (classifyDoc doc (Except.ok (some (flag, prob)))).class_prob = some prob ∧
      (classifyDoc doc (Except.ok (some (flag, prob)))).pk = doc.pk) :=
  identify_document_classes_spec
    [ClassifiedDoc.mk 1 none "t" 2 (some "hello") none]
    false (some "t") (some 2) (fun _ => Except.ok (some (true, 88)))

/-! ## C8: `LoadDocumentWithFields.process` -/

/-- The outcome of `LoadDocumentWithFields.process`: whether the inline
`document_fields` document was built and loaded, and either the list of
files for which one `create_document` sub-task each was started, or the
`RuntimeError` raised on an empty listing. -/
structure LoadProcessResult where
  inline_loaded : Bool
  outcome : Except String (List String)

/-- `LoadDocumentWithFields.process`: when the `document_fields` dict is
truthy, build a document from it and load it — this happens before
`source_data` is even read; when `source_data` is a non-empty path, list
the files under it via the file storage (the oracle `list_documents`),
raise `RuntimeError` when zero files are listed, and otherwise start one
`create_document` sub-task per listed file, in listing order. -/
def LoadDocumentWithFields.process (document_fields : List (String × String))
    (source_data : String) (list_documents : String → List String) :
    LoadProcessResult :=
  let inline_loaded := !document_fields.isEmpty
  if source_data ≠ "" then
    let file_list := list_documents source_data
    if file_list.length = 0 then
      { inline_loaded := inline_loaded,
        outcome := Except.error
          ("Wrong file or directory name or directory is empty: " ++ source_data) }
    else
      { inline_loaded := inline_loaded, outcome := Except.ok file_list }
  else
    { inline_loaded := inline_loaded, outcome := Except.ok [] }

/-- C8: `LoadDocumentWithFields.process` raises `RuntimeError` whenever the
path is non-empty but the storage lists zero files under it; the inline
`document_fields` document is built and loaded beforehand in every branch
(`inline_loaded` records it whether or not the error is raised); when the
listing is non-empty exactly one `create_document` sub-task is started per
listed file. -/
theorem loadDocumentWithFields_process_spec
    (document_fields : List (String × String)) (source_data : String)
    (list_documents : String → List String) :
    ((LoadDocumentWithFields.process document_fields source_data list_documents).inline_loaded
      = !document_fields.isEmpty) ∧
    (source_data ≠ "" → list_documents source_data = [] →
      (LoadDocumentWithFields.process document_fields source_data list_documents).outcome
        = Except.error
            ("Wrong file or directory name or directory is empty: " ++ source_data)) ∧
    (source_data ≠ "" → list_documents source_data ≠ [] →
      (LoadDocumentWithFields.process document_fields source_data list_documents).outcome
        = Except.ok (list_documents source_data)) ∧
    (source_data = "" →
      (LoadDocumentWithFields.process document_fields source_data list_documents).outcome
        = Except.ok []) := by
  refine ⟨?_, ?_, ?_, ?_⟩
  · by_cases hs : source_data = ""
    · simp [LoadDocumentWithFields.process, hs]
    · by_cases hl : list_documents source_data = [] <;>
        simp [LoadDocumentWithFields.process, hs, hl]
  · intro hs hl
    simp [LoadDocumentWithFields.process, hs, hl]
  · intro hs hl
    have hlen : ¬ (list_documents source_data).length = 0 := by
      simpa [List.length_eq_zero] using hl
    simp [LoadDocumentWithFields.process, hs, hlen]
  · intro hs
    simp [LoadDocumentWithFields.process, hs]

/-- Witness for C8: the process theorem applied to concrete inputs on which
the storage listing is empty: the error is raised and the inline document
was loaded regardless. -/
theorem loadDocumentWithFields_process_spec_witness :
    ((LoadDocumentWithFields.process [("code", "v")] "dir" (fun _ => [])).inline_loaded
      = !([("code", "v")] : List (String × String)).isEmpty) ∧
    (("dir" : String) ≠ "" → (fun _ => ([] : List String)) "dir" = [] →
      (LoadDocumentWithFields.process [("code", "v")] "dir" (fun _ => [])).outcome
        = Except.error ("Wrong file or directory name or directory is empty: " ++ "dir")) ∧
    (("dir" : String) ≠ "" → (fun _ => ([] : List String)) "dir" ≠ [] →
      (LoadDocumentWithFields.process [("code", "v")] "dir" (fun _ => [])).outcome
        = Except.ok ((fun _ => ([] : List String)) "dir")) ∧
    (("dir" : String) = "" →
      (LoadDocumentWithFields.process [("code", "v")] "dir" (fun _ => [])).outcome
        = Except.ok []) :=
  loadDocumentWithFields_process_spec [("code", "v")] "dir" (fun _ => [])

/-! ## C9: `TrainAndTest.join_field_detector_model_tests` -/

/-- One collected `test_field_detector_model` sub-task result row. -/
structure TestResult where
  text_units_number : Nat
  value_matches_expected : Bool
  actual_field_value : Option String
deriving DecidableEq

/-- `match_number` after the folding loop: results whose
`value_matches_expected` is set. -/
def match_number (results : List TestResult) : Nat :=
  results.countP (fun r => r.value_matches_expected)

/-- `total_per_value[v]` after the folding loop: results with the truthy
actual value `v` (falsy actual values — `None` and the empty string — are not
counted). -/
def totalPerValue (results : List TestResult) (v : String) : Nat :=
  results.countP
    (fun r => strTruthy r.actual_field_value && decide (r.actual_field_value = some v))

/-- `matches_per_value[v]` after the folding loop: results with the truthy
actual value `v` whose `value_matches_expected` is set. -/
def matchesPerValue (results : List TestResult) (v : String) : Nat :=
  results.countP
    (fun r => r.value_matches_expected && strTruthy r.actual_field_value &&
      decide (r.actual_field_value = some v))

/-- The keys of `total_per_value`: the distinct truthy actual values. -/
def perValueKeys (results : List TestResult) : List String :=
  ((results.filterMap (fun r => r.actual_field_value)).filter
    (fun s => decide (s ≠ ""))).dedup

/-- `TrainAndTest.join_field_detector_model_tests`: fold the collected
results into the counters, compute
`accuracy = match_number / test_doc_number` — `test_doc_number` is the
number of collected results, so zero results raise `ZeroDivisionError`;
write the accuracy back to the classifier model when `classifier_model_id`
is truthy; and for a choice field compute the per-value accuracies.
Returns the accuracy, the optional `(model id, accuracy)` write-back and
the per-value accuracy table. -/
def join_field_detector_model_tests (results : List TestResult)
    (classifier_model_id : Option Nat) (is_choice_field : Bool) :
    Except String (ℚ × Option (Nat × ℚ) × List (String × ℚ)) :=
  if results.length = 0 then Except.error "ZeroDivisionError: division by zero"
  else
    let accuracy : ℚ := (match_number results : ℚ) / (results.length : ℚ)
    let written :=
      if natTruthy classifier_model_id then
        some (classifier_model_id.getD 0, accuracy)
      else none
    let accuracy_per_value :=
      if is_choice_field then
        (perValueKeys results).map
          (fun v => (v, (matchesPerValue results v : ℚ) / (totalPerValue results v : ℚ)))
      else []
    Except.ok (accuracy, written, accuracy_per_value)

theorem nat_div_rat_mem_unit_interval (m t : Nat) (hmt : m ≤ t) :
    0 ≤ (m : ℚ) / (t : ℚ) ∧ (m : ℚ) / (t : ℚ) ≤ 1 := by
  constructor
  · exact div_nonneg (by positivity) (by positivity)
  · rcases Nat.eq_zero_or_pos t with ht | ht
    · subst ht
      interval_cases m
      simp
    · rw [div_le_one (by exact_mod_cast ht)]
      exact_mod_cast hmt

/-- C9: `join_field_detector_model_tests` divides `match_number` by the
number of collected results, so it raises `ZeroDivisionError` exactly when
no result was collected; with at least one result the accuracy and every
per-value accuracy lie in `[0, 1]`, and the accuracy is written back to a
classifier model if and only if `classifier_model_id` is truthy. -/
theorem join_field_detector_model_tests_spec (results : List TestResult)
    (classifier_model_id : Option Nat) (is_choice_field : Bool)
    (hne : results ≠ []) :
    (∃ accuracy written accuracy_per_value,
      join_field_detector_model_tests results classifier_model_id is_choice_field
        = Except.ok (accuracy, written, accuracy_per_value) ∧
      accuracy = (match_number results : ℚ) / (results.length : ℚ) ∧
      0 ≤ accuracy ∧ accuracy ≤ 1 ∧
      (∀ v a, (v, a) ∈ accuracy_per_value → 0 ≤ a ∧ a ≤ 1) ∧
      (written ≠ none ↔ natTruthy classifier_model_id = true) ∧
      (natTruthy classifier_model_id = true →
        written = some (classifier_model_id.getD 0, accuracy))) ∧
    join_field_detector_model_tests [] classifier_model_id is_choice_field
      = Except.error "ZeroDivisionError: division by zero" := by
  have hlen : ¬ results.length = 0 := by
    simpa [List.length_eq_zero] using hne
  refine ⟨⟨(match_number results : ℚ) / (results.length : ℚ),
    (if natTruthy classifier_model_id then
      some (classifier_model_id.getD 0, (match_number results : ℚ) / (results.length : ℚ))
    else none),
    (if is_choice_field then
      (perValueKeys results).map
        (fun v => (v, (matchesPerValue results v : ℚ) / (totalPerValue results v : ℚ)))
    else []), ?_, rfl, ?_, ?_, ?_, ?_, ?_⟩, ?_⟩
  · simp [join_field_detector_model_tests, hlen]
  · exact (nat_div_rat_mem_unit_interval _ _ (List.countP_le_length _)).1
  · exact (nat_div_rat_mem_unit_interval _ _ (List.countP_le_length _)).2
  · intro v a ha
    rcases is_choice_field with _ | _
    · simp at ha
    · simp only [if_true, List.mem_map] at ha
      obtain ⟨w, _, hw⟩ := ha
      obtain ⟨rfl, rfl⟩ := Prod.mk.injEq _ _ _ _ ▸ hw
      apply nat_div_rat_mem_unit_interval
      apply List.countP_mono_left
      intro r _ hr
      rw [Bool.and_assoc] at hr
      exact (Bool.and_eq_true _ _ |>.mp hr).2
  · cases ht : natTruthy classifier_model_id <;> simp [ht]
  · intro ht
    simp [ht]
  · simp [join_field_detector_model_tests]

/-- Witness for C9: the join theorem applied to two concrete results (one
matching with a truthy actual value, one not matching with a falsy one) and
a truthy classifier model id. -/
theorem join_field_detector_model_tests_spec_witness :
    ([TestResult.mk 3 true (some "x"), TestResult.mk 2 false (some "")] ≠ []) ∧
    ((∃ accuracy written accuracy_per_value,
      join_field_detector_model_tests
          [TestResult.mk 3 true (some "x"), TestResult.mk 2 false (some "")]
          (some 5) true
        = Except.ok (accuracy, written, accuracy_per_value) ∧
      accuracy = (match_number [TestResult.mk 3 true (some "x"),
          TestResult.mk 2 false (some "")] : ℚ) /
        (([TestResult.mk 3 true (some "x"), TestResult.mk 2 false (some "")] :
          List TestResult).length : ℚ) ∧
      0 ≤ accuracy ∧ accuracy ≤ 1 ∧
      (∀ v a, (v, a) ∈ accuracy_per_value → 0 ≤ a ∧ a ≤ 1) ∧
      (written ≠ none ↔ natTruthy (some 5) = true) ∧
      (natTruthy (some 5) = true → written = some ((some 5).getD 0, accuracy))) ∧
    join_field_detector_model_tests [] (some 5) true
      = Except.error "ZeroDivisionError: division by zero") :=
  ⟨by decide,
   join_field_detector_model_tests_spec
     [TestResult.mk 3 true (some "x"), TestResult.mk 2 false (some "")]
     (some 5) true (by decide)⟩

/-! ## C10: `LoadDocumentWithFields.load_field_values` -/

/-- A `DocumentField` row as needed by `load_field_values`: its code. -/
structure DocField where
  code : String
deriving DecidableEq

/-- A `DocumentType` as needed by `load_field_values`: its fields and the
`field_code_aliases` mapping (alias → field code; the Python `None`/empty
dict and the empty list behave identically here, as updating with an empty
dict is a no-op). -/
structure DocTypeModel where
  fields : List DocField
  field_code_aliases : List (String × String)

/-- Python dict insertion: overwrite an existing binding or append. -/
def dictInsert {β : Type} (m : List (String × β)) (k : String) (v : β) :
    List (String × β) :=
  if m.any (fun kv => decide (kv.1 = k)) then
    m.map (fun kv => if kv.1 = k then (k, v) else kv)
  else m ++ [(k, v)]

/-- Python `dict.get`. -/
def dictGet {β : Type} (m : List (String × β)) (k : String) : Option β :=
  (m.find? (fun kv => decide (kv.1 = k))).map (fun kv => kv.2)

/-- `field_codes_to_fields` of `load_field_values`: the field codes of the type
(lowercased) mapped to their fields, updated with the truthy alias entries —
each alias (lowercased) mapped to `field_codes_to_fields.get(code.lower())`,
which is `None` when the alias points at no field of the type (the
comprehension reads the original map, before the update). -/
def field_codes_to_fields (document_type : DocTypeModel) :
    List (String × Option DocField) :=
  let base := document_type.fields.foldl
    (fun m f => dictInsert m f.code.toLower (some f)) []
  document_type.field_code_aliases.foldl
    (fun m kv =>
      if kv.1 ≠ "" ∧ kv.2 ≠ "" then
        dictInsert m kv.1.toLower ((dictGet base kv.2.toLower).join)
      else m)
    base

/-- A `field_value_text`: either a plain value or a list of candidate
values (`type(field_value_text) is list`). -/
inductive FieldValueText
  | str (text : String)
  | listOf (texts : List String)

/-- The loop over a list-valued entry: the value extracted from the first
element that yields a truthy one wins (`break`), later elements are
ignored; a raise from the extraction propagates. -/
def extractFirst {μ : Type} (extract : DocField → String → Except Unit (Option μ))
    (field : DocField) : List String → Except Unit (Option μ)
  | [] => Except.ok none
  | t :: ts =>
    match extract field t with
    | Except.error e => Except.error e
    | Except.ok (some v) => Except.ok (some v)
    | Except.ok none => extractFirst extract field ts

/-- Extraction of one entry value, by shape. -/
def entryExtract {μ : Type} (extract : DocField → String → Except Unit (Option μ))
    (field : DocField) : FieldValueText → Except Unit (Option μ)
  | FieldValueText.str text => extract field text
  | FieldValueText.listOf texts => extractFirst extract field texts

/-- `fields_to_values` insertion (a Python dict keyed by the field). -/
def fieldsInsert {μ : Type} (m : List (DocField × μ)) (f : DocField) (v : μ) :
    List (DocField × μ) :=
  if m.any (fun kv => decide (kv.1 = f)) then
    m.map (fun kv => if kv.1 = f then (f, v) else kv)
  else m ++ [(f, v)]

/-- One iteration of the `load_field_values` entry loop over the current
`fields_to_values` accumulator: skip `None` values, skip (with a warning)
aliases that resolve to no field, extract the value by shape, store a
truthy extracted value, and on a raise either log and skip
(`ignore_parsing_errors`) or raise `RuntimeError`. -/
def load_field_values_step {μ : Type} (m : List (String × Option DocField))
    (ignore_parsing_errors : Bool)
    (extract : DocField → String → Except Unit (Option μ))
    (fields_to_values : List (DocField × μ))
    (entry : String × Option FieldValueText) :
    Except String (List (DocField × μ)) :=
  match entry.2 with
  | none => Except.ok fields_to_values
  | some field_value_text =>
    match dictGet m entry.1.toLower with
    | none => Except.ok fields_to_values
    | some none => Except.ok fields_to_values
    | some (some field) =>
      match entryExtract extract field field_value_text with
      | Except.ok (some v) => Except.ok (fieldsInsert fields_to_values field v)
      | Except.ok none => Except.ok fields_to_values
      | Except.error _ =>
        if ignore_parsing_errors then Except.ok fields_to_values
        else Except.error ("Unable to cast value to the target type of " ++ field.code)

/-- `LoadDocumentWithFields.load_field_values`: with no document type the
mapping is empty; otherwise fold the entry loop over
`document_fields_alias_to_value` starting from the empty mapping.  The
typed-field extraction (`extract_from_possible_value_text` composed with
`field_value_python_to_json`) is the oracle `extract`
(`Except.error` — a raise; `Except.ok none` — a falsy `maybe_value`). -/
def load_field_values {μ : Type} (document_type : Option DocTypeModel)
    (document_fields_alias_to_value : List (String × Option FieldValueText))
    (ignore_parsing_errors : Bool)
    (extract : DocField → String → Except Unit (Option μ)) :
    Except String (List (DocField × μ)) :=
  match document_type with
  | none => Except.ok []
  | some dt =>
    document_fields_alias_to_value.foldlM
      (load_field_values_step (field_codes_to_fields dt) ignore_parsing_errors extract)
      []

/-- Peeling one entry off the loop when its iteration returns normally. -/
theorem load_field_values_cons_ok {μ : Type} (dt : DocTypeModel)
    (entry : String × Option FieldValueText)
    (rest : List (String × Option FieldValueText)) (ignore_parsing_errors : Bool)
    (extract : DocField → String → Except Unit (Option μ))
    (acc : List (DocField × μ))
    (h : load_field_values_step (field_codes_to_fields dt) ignore_parsing_errors extract [] entry
      = Except.ok acc) :
    load_field_values (some dt) (entry :: rest) ignore_parsing_errors extract
      = rest.foldlM
          (load_field_values_step (field_codes_to_fields dt) ignore_parsing_errors extract)
          acc := by
  rw [show load_field_values (some dt) (entry :: rest) ignore_parsing_errors extract
      = (entry :: rest).foldlM
          (load_field_values_step (field_codes_to_fields dt) ignore_parsing_errors extract)
          [] from rfl,
    List.foldlM_cons, h]
  rfl

/-- Peeling one entry off the loop when its iteration raises. -/
theorem load_field_values_cons_error {μ : Type} (dt : DocTypeModel)
    (entry : String × Option FieldValueText)
    (rest : List (String × Option FieldValueText)) (ignore_parsing_errors : Bool)
    (extract : DocField → String → Except Unit (Option μ)) (msg : String)
    (h : load_field_values_step (field_codes_to_fields dt) ignore_parsing_errors extract [] entry
      = Except.error msg) :
    load_field_values (some dt) (entry :: rest) ignore_parsing_errors extract
      = Except.error msg := by
  rw [show load_field_values (some dt) (entry :: rest) ignore_parsing_errors extract
      = (entry :: rest).foldlM
          (load_field_values_step (field_codes_to_fields dt) ignore_parsing_errors extract)
          [] from rfl,
    List.foldlM_cons, h]
  rfl

/-- C10: in `load_field_values`, an entry whose value is `None` contributes
nothing; an alias resolving to no field of the type (absent from the map,
or mapped to `None`) contributes nothing; in a list-valued entry the first
element yielding a value determines the value of the field and later elements
are ignored; a raising extraction yields `RuntimeError` if and only if
`ignore_parsing_errors` is false, and with `ignore_parsing_errors` the
entry is dropped and processing continues. -/
theorem load_field_values_spec {μ : Type} (dt : DocTypeModel)
    (rest : List (String × Option FieldValueText))
    (ignore_parsing_errors : Bool)
    (extract : DocField → String → Except Unit (Option μ))
    (field_alias : String) (val : FieldValueText) (field : DocField)
    (t : String) (ts : List String) (v : μ) :
    load_field_values (some dt) ((field_alias, none) :: rest) ignore_parsing_errors extract
      = load_field_values (some dt) rest ignore_parsing_errors extract ∧
    (dictGet (field_codes_to_fields dt) field_alias.toLower = none ∨
      dictGet (field_codes_to_fields dt) field_alias.toLower = some none →
      load_field_values (some dt) ((field_alias, some val) :: rest) ignore_parsing_errors extract
        = load_field_values (some dt) rest ignore_parsing_errors extract) ∧
    (extract field t = Except.ok (some v) →
      extractFirst extract field (t :: ts) = Except.ok (some v)) ∧
    (extract field t = Except.ok none →
      extractFirst extract field (t :: ts) = extractFirst extract field ts) ∧
    (dictGet (field_codes_to_fields dt) field_alias.toLower = some (some field) →
      entryExtract extract field val = Except.ok (some v) →
      load_field_values (some dt) ((field_alias, some val) :: rest) ignore_parsing_errors extract
        = rest.foldlM
            (load_field_values_step (field_codes_to_fields dt) ignore_parsing_errors extract)
            [(field, v)]) ∧
    (∀ e, dictGet (field_codes_to_fields dt) field_alias.toLower = some (some field) →
      entryExtract extract field val = Except.error e →
      (ignore_parsing_errors = false →
        load_field_values (some dt) ((field_alias, some val) :: rest) ignore_parsing_errors extract
          = Except.error ("Unable to cast value to the target type of " ++ field.code)) ∧
      (ignore_parsing_errors = true →
        load_field_values (some dt) ((field_alias, some val) :: rest) ignore_parsing_errors extract
          = load_field_values (some dt) rest ignore_parsing_errors extract)) := by
  refine ⟨?_, ?_, ?_, ?_, ?_, ?_⟩
  · exact load_field_values_cons_ok dt _ rest _ extract [] rfl
  · rintro (hres | hres) <;>
      exact load_field_values_cons_ok dt _ rest _ extract []
        (by simp [load_field_values_step, hres])
  · intro hex
    simp [extractFirst, hex]
  · intro hex
    simp [extractFirst, hex]
  · intro hres hex
    exact load_field_values_cons_ok dt _ rest _ extract [(field, v)]
      (by simp [load_field_values_step, hres, hex, fieldsInsert])
  · intro e hres hex
    constructor
    · intro hign
      subst hign
      exact load_field_values_cons_error dt _ rest _ extract _
        (by simp [load_field_values_step, hres, hex])
    · intro hign
      subst hign
      exact load_field_values_cons_ok dt _ rest _ extract []
        (by simp [load_field_values_step, hres, hex])

/-- Witness for C10: the entry-loop theorem applied to a concrete document
type (one field `date`, one alias `Effective Date → DATE`), a concrete
two-element list value and an extraction oracle that raises on `"bad"`,
yields nothing on `""` and succeeds otherwise. -/
theorem load_field_values_spec_witness :
    load_field_values (some (DocTypeModel.mk [DocField.mk "date"] [("Effective Date", "DATE")]))
        [("other", none)] true
        (fun _ t => if t = "bad" then Except.error () else
          if t = "" then Except.ok none else Except.ok (some t.length))
      = load_field_values
          (some (DocTypeModel.mk [DocField.mk "date"] [("Effective Date", "DATE")])) [] true
          (fun _ t => if t = "bad" then Except.error () else
            if t = "" then Except.ok none else Except.ok (some t.length)) ∧
    (dictGet (field_codes_to_fields
        (DocTypeModel.mk [DocField.mk "date"] [("Effective Date", "DATE")])) "other".toLower = none ∨
      dictGet (field_codes_to_fields
        (DocTypeModel.mk [DocField.mk "date"] [("Effective Date", "DATE")]))
          "other".toLower = some none →
      load_field_values (some (DocTypeModel.mk [DocField.mk "date"] [("Effective Date", "DATE")]))
          [("other", some (FieldValueText.listOf ["", "2020"]))] true
          (fun _ t => if t = "bad" then Except.error () else
            if t = "" then Except.ok none else Except.ok (some t.length))
        = load_field_values
            (some (DocTypeModel.mk [DocField.mk "date"] [("Effective Date", "DATE")])) [] true
            (fun _ t => if t = "bad" then Except.error () else
              if t = "" then Except.ok none else Except.ok (some t.length))) ∧
    ((fun (_ : DocField) (t : String) => if t = "bad" then Except.error () else
        if t = "" then Except.ok none else Except.ok (some t.length)) (DocField.mk "date") ""
        = Except.ok (some ("".length)) →
      extractFirst
        (fun _ t => if t = "bad" then Except.error () else
          if t = "" then Except.ok none else Except.ok (some t.length))
        (DocField.mk "date") ["", "2020"] = Except.ok (some ("".length))) ∧
    ((fun (_ : DocField) (t : String) => if t = "bad" then Except.error () else
        if t = "" then Except.ok none else Except.ok (some t.length)) (DocField.mk "date") ""
        = Except.ok none →
      extractFirst
        (fun _ t => if t = "bad" then Except.error () else
          if t = "" then Except.ok none else Except.ok (some t.length))
        (DocField.mk "date") ["", "2020"]
        = extractFirst
            (fun _ t => if t = "bad" then Except.error () else
              if t = "" then Except.ok none else Except.ok (some t.length))
            (DocField.mk "date") ["2020"]) ∧
    (dictGet (field_codes_to_fields
        (DocTypeModel.mk [DocField.mk "date"] [("Effective Date", "DATE")]))
          "other".toLower = some (some (DocField.mk "date")) →
      entryExtract
        (fun _ t => if t = "bad" then Except.error () else
          if t = "" then Except.ok none else Except.ok (some t.length))
        (DocField.mk "date") (FieldValueText.listOf ["", "2020"])
        = Except.ok (some ("".length)) →
      load_field_values (some (DocTypeModel.mk [DocField.mk "date"] [("Effective Date", "DATE")]))
          [("other", some (FieldValueText.listOf ["", "2020"]))] true
          (fun _ t => if t = "bad" then Except.error () else
            if t = "" then Except.ok none else Except.ok (some t.length))
        = List.foldlM
            (load_field_values_step
              (field_codes_to_fields
                (DocTypeModel.mk [DocField.mk "date"] [("Effective Date", "DATE")])) true
              (fun _ t => if t = "bad" then Except.error () else
                if t = "" then Except.ok none else Except.ok (some t.length)))
            [(DocField.mk "date", "".length)] []) ∧
    (∀ e, dictGet (field_codes_to_fields
        (DocTypeModel.mk [DocField.mk "date"] [("Effective Date", "DATE")]))
          "other".toLower = some (some (DocField.mk "date")) →
      entryExtract
        (fun _ t => if t = "bad" then Except.error () else
          if t = "" then Except.ok none else Except.ok (some t.length))
        (DocField.mk "date") (FieldValueText.listOf ["", "2020"]) = Except.error e →
      (true = false →
        load_field_values
            (some (DocTypeModel.mk [DocField.mk "date"] [("Effective Date", "DATE")]))
            [("other", some (FieldValueText.listOf ["", "2020"]))] true
            (fun _ t => if t = "bad" then Except.error () else
              if t = "" then Except.ok none else Except.ok (some t.length))
          = Except.error
              ("Unable to cast value to the target type of " ++ (DocField.mk "date").code)) ∧
      (true = true →
        load_field_values
            (some (DocTypeModel.mk [DocField.mk "date"] [("Effective Date", "DATE")]))
            [("other", some (FieldValueText.listOf ["", "2020"]))] true
            (fun _ t => if t = "bad" then Except.error () else
              if t = "" then Except.ok none else Except.ok (some t.length))
          = load_field_values
              (some (DocTypeModel.mk [DocField.mk "date"] [("Effective Date", "DATE")])) [] true
              (fun _ t => if t = "bad" then Except.error () else
                if t = "" then Except.ok none else Except.ok (some t.length)))) :=
  load_field_values_spec (DocTypeModel.mk [DocField.mk "date"] [("Effective Date", "DATE")])
    [] true
    (fun _ t => if t = "bad" then Except.error () else
      if t = "" then Except.ok none else Except.ok (some t.length))
    "other" (FieldValueText.listOf ["", "2020"]) (DocField.mk "date") "" ["2020"] "".length

end Contraxsuite
